import Mathlib

/-!
Verification of the ABX mock-exchange client (`src/abx_client.cpp`).

The development shallowly embeds the client's pure core: the wire codec
(`readInt32`, `sendRequest`, `parsePacket`), the primary stream phase, the
gap-detection and gap-recovery loop of `fetchAndSaveData`, and the final
sort. Bytes are natural numbers below 256; buffers are lists of bytes; the
network is an oracle giving the response to each recovery request; C++
exceptions that propagate out of `fetchAndSaveData` are an `Except.error`
result, in which case `main` writes no output.
-/

/-- One decoded market-data record (`struct Packet`, lines 21-38 of
`abx_client.cpp`). `symbol` holds the four raw bytes; `side` is the raw byte
stored into the `Side` enum by `static_cast` (which performs no validation,
so any byte value can end up here); the three numeric fields are decoded
32-bit values. -/
structure Packet where
  symbol : List Nat
  side : Nat
  quantity : Nat
  price : Nat
  sequence : Nat
deriving DecidableEq

/-- Model of `readInt32` (lines 41-46): big-endian 32-bit read at `offset`, literally
`(b0 << 24) | (b1 << 16) | (b2 << 8) | b3` on the byte values. Indexing past
the end of the vector is undefined behaviour in the C++; the model returns
the `getD` default 0 there, and every theorem whose conclusion depends on
the value carries a length hypothesis keeping all accesses in bounds. -/
def readInt32 (data : List Nat) (offset : Nat) : Nat :=
  data.getD offset 0 <<< 24 ||| data.getD (offset + 1) 0 <<< 16 |||
    data.getD (offset + 2) 0 <<< 8 ||| data.getD (offset + 3) 0

/-- Model of `sendRequest` (lines 49-53): the two bytes written to the socket for one
request. Both C++ parameters are `uint8_t`, so an argument passed as a wider
integer (the `uint32_t` sequence number at line 134) goes through unsigned
narrowing, i.e. reduction mod 256. -/
def sendRequestBytes (callType sequence : Nat) : List Nat :=
  [callType % 256, sequence % 256]

/-- Model of `parsePacket` (lines 74-89): decode one response buffer into a `Packet`.
The C++ performs no length check and no validation of the side byte: it
copies four symbol bytes, casts byte 4 into the enum, and reads the three
big-endian integers at offsets 5, 9 and 13. -/
def parsePacket (data : List Nat) : Packet :=
  { symbol := data.take 4
    side := data.getD 4 0
    quantity := readInt32 data 5
    price := readInt32 data 9
    sequence := readInt32 data 13 }

/-- The primary stream phase (lines 105-112): every non-empty
`receiveResponse` buffer, in arrival order, is parsed and appended to
`packets`. The model's input is the list of buffers delivered before the
server closes the connection. -/
def streamPackets (frames : List (List Nat)) : List Packet :=
  frames.map parsePacket

/-- Model of `receivedSequences` as built by the stream loop (line 111): the sequence
number of every parsed packet. The C++ `std::set` is only ever queried for
membership, so a list queried with `∈` is an adequate model. -/
def streamSeqs (frames : List (List Nat)) : List Nat :=
  (streamPackets frames).map Packet.sequence

/-- Model of `lastSeq = packets.back().sequence` (line 120). `back()` on an empty
vector is unreachable because the caller has already returned at line 117;
the `getD` default never matters in any theorem below. -/
def streamLastSeq (ps : List Packet) : Nat :=
  (ps.getLastD { symbol := [], side := 0, quantity := 0, price := 0, sequence := 0 }).sequence

/-- Gap detection (lines 121-126): every `i` with `1 <= i < lastSeq` that is
not in `receivedSequences`, collected in ascending order — the order in
which the C++ fills and then iterates the `std::set<uint32_t>`. -/
def missingSequences (seen : List Nat) (lastSeq : Nat) : List Nat :=
  (List.range' 1 (lastSeq - 1)).filter (fun i => decide (i ∉ seen))

/-- Outcome of the connect/send/receive cycle that the recovery loop runs
for one missing sequence: `err` is a thrown `boost::system::system_error`
(connect failure or a `receiveResponse` transport error, line 66); `empty`
is an orderly close, `receiveResponse` returning an empty buffer; `frame d`
is a non-empty received buffer. -/
inductive RecoveryResponse where
  | err
  | empty
  | frame (data : List Nat)
deriving DecidableEq

/-- Failures of `fetchAndSaveData`: the logged early return at lines 115-118
when the stream produced nothing, and an exception propagating to `main`
(lines 160-167); in both cases no output file is written. -/
inductive FetchError where
  | noDataReceived
  | channelError
deriving DecidableEq

/-- Whether a recovery response delivered a frame, i.e. the recovery of that
sequence succeeded. -/
def RecoveryResponse.isFrame : RecoveryResponse → Bool
  | .frame _ => true
  | _ => false

/-- The recovery loop (lines 131-140) over the missing sequences in
ascending order. For each sequence the code opens a fresh socket, sends a
call-type-2 request, and receives exactly once; `resp s` abstracts that one
cycle. A thrown exception (`.err`) is not caught anywhere inside
`fetchAndSaveData`, so it aborts the whole loop. An empty buffer skips the
append. A non-empty buffer is parsed and appended to `packets` only — the
loop never inserts into `receivedSequences`. -/
def recoverLoop (resp : Nat → RecoveryResponse) :
    List Nat → List Packet → Except FetchError (List Packet)
  | [], acc => .ok acc
  | s :: rest, acc =>
    match resp s with
    | .err => .error .channelError
    | .empty => recoverLoop resp rest acc
    | .frame d => recoverLoop resp rest (acc ++ [parsePacket d])

/-- The request frames sent by the recovery loop: one fresh connection and
one call-type-2 request per missing sequence (lines 132-134), in the loop's
ascending order. -/
def recoveryRequests (seen : List Nat) (lastSeq : Nat) : List (List Nat) :=
  (missingSequences seen lastSeq).map (fun s => sendRequestBytes 2 s)

/-- The missing-sequence list of the run whose primary stream delivered
`frames`. -/
def missingOf (frames : List (List Nat)) : List Nat :=
  missingSequences (streamSeqs frames) (streamLastSeq (streamPackets frames))

/-- Model of `fetchAndSaveData` up to the sort (lines 92-140): parse the primary
stream; if it produced no packets, return the `NoDataReceived` failure
(lines 115-118 log and return early, before any gap analysis); otherwise
run gap detection and the recovery loop. An `.error` result means no output
is written. -/
def fetchAccum (frames : List (List Nat)) (resp : Nat → RecoveryResponse) :
    Except FetchError (List Packet) :=
  if (streamPackets frames).isEmpty then .error .noDataReceived
  else recoverLoop resp (missingOf frames) (streamPackets frames)

/-- Value of `receivedSequences` after the whole of `fetchAndSaveData` has run: the
recovery loop (lines 131-140) never inserts into the set, so its final value
is exactly the primary-stream sequences of line 111. -/
def finalSeenSequences (frames : List (List Nat)) : List Nat :=
  streamSeqs frames

/-- Non-decreasing in `sequence`: what the comparator
`a.sequence < b.sequence` of line 143 guarantees about consecutive elements
of the sorted vector. -/
def sortedBySeq (l : List Packet) : Prop :=
  l.Pairwise (fun a b => a.sequence ≤ b.sequence)

/-- The full guarantee of the `std::sort` call (lines 143-145): the result
is some permutation of the accumulated list that is non-decreasing in
`sequence`. `std::sort` is not a stable sort, so the relative order of
packets with equal sequence numbers is not specified beyond this. -/
def stdSortOutput (input output : List Packet) : Prop :=
  input.Perm output ∧ sortedBySeq output

instance (l : List Packet) : Decidable (sortedBySeq l) := by
  unfold sortedBySeq
  infer_instance

instance (a b : List Packet) : Decidable (stdSortOutput a b) := by
  unfold stdSortOutput
  exact instDecidableAnd

/-- The big-endian byte decomposition of a 32-bit value, used to state that
decoded fields round-trip the observed bytes. -/
def toBytes4 (n : Nat) : List Nat :=
  [n / 2 ^ 24 % 256, n / 2 ^ 16 % 256, n / 2 ^ 8 % 256, n % 256]

/-- The packets appended by a run of the recovery loop that finishes without
a transport error: one parsed packet per missing sequence whose response was
a non-empty buffer. -/
def recoveredPackets (resp : Nat → RecoveryResponse) (missing : List Nat) :
    List Packet :=
  missing.filterMap (fun s =>
    match resp s with
    | .frame d => some (parsePacket d)
    | _ => none)

/-- A well-formed 17-byte response frame with symbol "ABCD", for concrete
test runs: side byte `sd`, then big-endian quantity, price and sequence. -/
def testFrame (sd q p sq : Nat) : List Nat :=
  [65, 66, 67, 68, sd] ++ toBytes4 q ++ toBytes4 p ++ toBytes4 sq

/-- Concrete run for C2: primary stream delivers sequences 1 and 3. -/
def c2Frames : List (List Nat) :=
  [testFrame 66 1 1 1, testFrame 83 1 1 3]

/-- Concrete recovery oracle for C2: sequence 2 is recovered successfully,
any other request finds the connection closed. -/
def c2Resp : Nat → RecoveryResponse :=
  fun s => if s = 2 then .frame (testFrame 66 1 1 2) else .empty

/-- Concrete run for C5: primary stream delivers sequences 1 and 4, so
sequences 2 and 3 are missing. -/
def c5Frames : List (List Nat) :=
  [testFrame 66 1 1 1, testFrame 83 1 1 4]

/-- Concrete recovery oracle for C5: the request for sequence 2 hits a
transport error, while sequence 3 would have been recoverable. -/
def c5Resp : Nat → RecoveryResponse :=
  fun s => if s = 2 then .err else if s = 3 then .frame (testFrame 66 1 1 3) else .empty

/-- Concrete run for C7: the stream delivers sequence 1 and then sequence 2
twice (differing quantities), and closes; nothing is missing. -/
def c7Frames : List (List Nat) :=
  [testFrame 66 1 1 1, testFrame 66 10 1 2, testFrame 83 20 1 2]

/-- Recovery oracle for the C7 run; it is never consulted. -/
def c7Resp : Nat → RecoveryResponse :=
  fun _ => .empty

/-- The accumulated packets of the C7 run. -/
def c7Packets : List Packet :=
  streamPackets c7Frames

/-- The C7 accumulation with the two equal-sequence packets exchanged: also
an admissible result of the unstable `std::sort`. -/
def c7Swapped : List Packet :=
  [parsePacket (testFrame 66 1 1 1), parsePacket (testFrame 83 20 1 2),
    parsePacket (testFrame 66 10 1 2)]

/-- Concrete run for the C7 witness: stream sequences 1, 2, 4, 5. -/
def c7wFrames : List (List Nat) :=
  [testFrame 66 1 1 1, testFrame 66 1 1 2, testFrame 66 1 1 4, testFrame 83 1 1 5]

/-- Recovery oracle for the C7 witness run: the single missing sequence 3 is
recovered. -/
def c7wResp : Nat → RecoveryResponse :=
  fun s => if s = 3 then .frame (testFrame 66 1 1 3) else .empty

/-- Accumulated packets of the C7 witness run. -/
def c7wPackets : List Packet :=
  streamPackets c7wFrames ++ recoveredPackets c7wResp (missingOf c7wFrames)

/-- The fully sorted output of the C7 witness run. -/
def c7wOut : List Packet :=
  [parsePacket (testFrame 66 1 1 1), parsePacket (testFrame 66 1 1 2),
    parsePacket (testFrame 66 1 1 3), parsePacket (testFrame 66 1 1 4),
    parsePacket (testFrame 83 1 1 5)]

/-- Concrete run for the C10 witness: the same frame, sequence 1, arrives
twice; nothing is missing. -/
def c10wFrames : List (List Nat) :=
  [testFrame 66 5 9 1, testFrame 66 5 9 1]

/-- Recovery oracle for the C10 witness run; it is never consulted. -/
def c10wResp : Nat → RecoveryResponse :=
  fun _ => .empty

/-- Accumulated packets of the C10 witness run: the duplicate appears twice. -/
def c10wPackets : List Packet :=
  streamPackets c10wFrames

/-- Concrete packets for C9: the stream delivers sequence 5 first and then
sequence 3, so the last-appended sequence, 3, is below the maximum, 5. -/
def c9pA : Packet :=
  parsePacket (testFrame 66 1 1 5)

/-- Second C9 packet, sequence 3, the last one appended. -/
def c9pB : Packet :=
  parsePacket (testFrame 66 1 1 3)

theorem shiftLeft_lor_eq_add (n : Nat) :
    ∀ x a : Nat, a < 2 ^ n → x <<< n ||| a = x * 2 ^ n + a := by
  induction n with
  | zero =>
    intro x a ha
    have h0 : a = 0 := by omega
    subst h0
    simp [Nat.shiftLeft_eq]
  | succ n ih =>
    intro x a ha
    have hdiv : a.div2 < 2 ^ n := by
      rw [Nat.div2_val]
      have h2 : 2 ^ (n + 1) = 2 ^ n * 2 := Nat.pow_succ 2 n
      omega
    have hx : x <<< (n + 1) = Nat.bit false (x <<< n) := by
      simp only [Nat.bit_val, Nat.shiftLeft_eq, Nat.pow_succ, Bool.toNat_false]
      ring
    calc x <<< (n + 1) ||| a
        = Nat.bit false (x <<< n) ||| Nat.bit a.bodd a.div2 := by
          rw [hx, Nat.bit_decomp]
      _ = Nat.bit (false || a.bodd) (x <<< n ||| a.div2) := Nat.lor_bit _ _ _ _
      _ = Nat.bit a.bodd (x * 2 ^ n + a.div2) := by
          rw [Bool.false_or, ih _ _ hdiv]
      _ = x * 2 ^ (n + 1) + a := by
          rw [Nat.bit_val, Nat.div2_val, ← Nat.mod_two_of_bodd, Nat.pow_succ,
            ← Nat.mul_assoc]
          generalize x * 2 ^ n = m
          omega

theorem readInt32_eq_value (data : List Nat) (off : Nat)
    (h1 : data.getD (off + 1) 0 < 256) (h2 : data.getD (off + 2) 0 < 256)
    (h3 : data.getD (off + 3) 0 < 256) :
    readInt32 data off =
      data.getD off 0 * 2 ^ 24 + data.getD (off + 1) 0 * 2 ^ 16 +
        data.getD (off + 2) 0 * 2 ^ 8 + data.getD (off + 3) 0 := by
  unfold readInt32
  rw [Nat.lor_assoc, Nat.lor_assoc]
  rw [shiftLeft_lor_eq_add 8 _ _ h3]
  rw [shiftLeft_lor_eq_add 16 _ _ (by omega)]
  rw [shiftLeft_lor_eq_add 24 _ _ (by omega)]
  ring

theorem take_four_getD (l : List Nat) (h : 4 ≤ l.length) :
    l.take 4 = [l.getD 0 0, l.getD 1 0, l.getD 2 0, l.getD 3 0] := by
  match l with
  | _ :: _ :: _ :: _ :: _ => rfl
  | [] | [_] | [_, _] | [_, _, _] => simp at h

theorem mem_missingSequences (seen : List Nat) (lastSeq i : Nat) :
    i ∈ missingSequences seen lastSeq ↔ 1 ≤ i ∧ i < lastSeq ∧ i ∉ seen := by
  unfold missingSequences
  simp only [List.mem_filter, List.mem_range'_1, decide_eq_true_eq]
  constructor
  · rintro ⟨⟨ha, hb⟩, hc⟩
    exact ⟨ha, by omega, hc⟩
  · rintro ⟨ha, hb, hc⟩
    exact ⟨⟨ha, by omega⟩, hc⟩

theorem missingSequences_nodup (seen : List Nat) (lastSeq : Nat) :
    (missingSequences seen lastSeq).Nodup :=
  (List.nodup_range' 1 (lastSeq - 1)).filter _

theorem missingSequences_sorted (seen : List Nat) (lastSeq : Nat) :
    (missingSequences seen lastSeq).Pairwise (· < ·) :=
  (List.pairwise_lt_range' 1 (lastSeq - 1)).filter _

theorem recoverLoop_ok (resp : Nat → RecoveryResponse) :
    ∀ (missing : List Nat) (acc ps : List Packet),
      recoverLoop resp missing acc = .ok ps →
      ps = acc ++ recoveredPackets resp missing := by
  intro missing
  induction missing with
  | nil =>
    intro acc ps h
    simp only [recoverLoop, Except.ok.injEq] at h
    simp [recoveredPackets, h]
  | cons s rest ih =>
    intro acc ps h
    simp only [recoverLoop] at h
    cases hr : resp s with
    | err => rw [hr] at h; exact absurd h (by simp)
    | empty =>
      rw [hr] at h
      rw [ih _ _ h]
      simp [recoveredPackets, hr]
    | frame d =>
      rw [hr] at h
      rw [ih _ _ h]
      simp [recoveredPackets, hr]

theorem recoveredPackets_seqs (resp : Nat → RecoveryResponse) :
    ∀ missing : List Nat,
      (∀ s ∈ missing, ∃ d, resp s = .frame d ∧ (parsePacket d).sequence = s) →
      (recoveredPackets resp missing).map Packet.sequence = missing := by
  intro missing
  induction missing with
  | nil => intro _; rfl
  | cons s rest ih =>
    intro h
    obtain ⟨d, hd, hs⟩ := h s (by simp)
    simp only [recoveredPackets, List.filterMap_cons, hd]
    simp only [List.map_cons, hs]
    have := ih (fun t ht => h t (by simp [ht]))
    simp only [recoveredPackets] at this
    rw [this]

theorem fetchAccum_ok (frames : List (List Nat)) (resp : Nat → RecoveryResponse)
    (ps : List Packet) (h : fetchAccum frames resp = .ok ps) :
    frames ≠ [] ∧ ps = streamPackets frames ++ recoveredPackets resp (missingOf frames) := by
  unfold fetchAccum at h
  by_cases he : (streamPackets frames).isEmpty
  · rw [if_pos he] at h
    exact absurd h (by simp)
  · rw [if_neg he] at h
    refine ⟨?_, recoverLoop_ok _ _ _ _ h⟩
    intro hf
    subst hf
    simp [streamPackets] at he

theorem streamLastSeq_getLast (ps : List Packet) (h : ps ≠ []) :
    streamLastSeq ps = (ps.getLast h).sequence := by
  unfold streamLastSeq
  rw [List.getLastD_eq_getLast?, List.getLast?_eq_getLast ps h]
  rfl

theorem streamLastSeq_mem_seqs (ps : List Packet) (h : ps ≠ []) :
    streamLastSeq ps ∈ ps.map Packet.sequence := by
  rw [streamLastSeq_getLast ps h]
  exact List.mem_map_of_mem Packet.sequence (List.getLast_mem h)

theorem recoverLoop_no_err (resp : Nat → RecoveryResponse) :
    ∀ (missing : List Nat) (acc : List Packet),
      (∀ s ∈ missing, resp s ≠ .err) →
      recoverLoop resp missing acc = .ok (acc ++ recoveredPackets resp missing) := by
  intro missing
  induction missing with
  | nil =>
    intro acc _
    simp [recoverLoop, recoveredPackets]
  | cons s rest ih =>
    intro acc h
    have h' : ∀ t ∈ rest, resp t ≠ RecoveryResponse.err :=
      fun t ht => h t (List.mem_cons_of_mem _ ht)
    simp only [recoverLoop]
    cases hr : resp s with
    | err => exact absurd hr (h s (List.mem_cons_self _ _))
    | empty =>
      exact (ih acc h').trans (by simp [recoveredPackets, hr])
    | frame d =>
      exact (ih (acc ++ [parsePacket d]) h').trans
        (by simp [recoveredPackets, hr, List.append_assoc])

theorem recoveredPackets_length (resp : Nat → RecoveryResponse) :
    ∀ missing : List Nat,
      (recoveredPackets resp missing).length
        = missing.countP (fun s => (resp s).isFrame) := by
  intro missing
  induction missing with
  | nil => rfl
  | cons s rest ih =>
    cases hr : resp s with
    | err =>
      have h1 : recoveredPackets resp (s :: rest) = recoveredPackets resp rest := by
        simp [recoveredPackets, hr]
      rw [h1, ih, List.countP_cons, hr]
      simp [RecoveryResponse.isFrame]
    | empty =>
      have h1 : recoveredPackets resp (s :: rest) = recoveredPackets resp rest := by
        simp [recoveredPackets, hr]
      rw [h1, ih, List.countP_cons, hr]
      simp [RecoveryResponse.isFrame]
    | frame d =>
      have h1 : recoveredPackets resp (s :: rest)
          = parsePacket d :: recoveredPackets resp rest := by
        simp [recoveredPackets, hr]
      rw [h1, List.length_cons, ih, List.countP_cons, hr]
      simp [RecoveryResponse.isFrame]

theorem missingOf_eq (frames : List (List Nat)) :
    missingOf frames
      = missingSequences (streamSeqs frames) (streamLastSeq (streamPackets frames)) :=
  rfl

/-- C1: the Gap Reconciler's missing set is exactly
`{i : 1 ≤ i < M, i ∉ S}`, with the upper bound strictly exclusive of
`M = lastSeq`; in particular for `S = {1,2,4,5}` and `M = 5` it is `{3}`,
and whenever `S` covers `[1, M]` it is empty and zero recovery connections
(request frames) are opened. -/
theorem c1_missing_set_exact :
    (∀ (seen : List Nat) (lastSeq i : Nat),
        i ∈ missingSequences seen lastSeq ↔ 1 ≤ i ∧ i < lastSeq ∧ i ∉ seen)
    ∧ missingSequences [1, 2, 4, 5] 5 = [3]
    ∧ ∀ (seen : List Nat) (lastSeq : Nat),
        (∀ i, 1 ≤ i → i ≤ lastSeq → i ∈ seen) →
        missingSequences seen lastSeq = [] ∧ recoveryRequests seen lastSeq = [] := by
  refine ⟨mem_missingSequences, by decide, ?_⟩
  intro seen lastSeq h
  have hm : missingSequences seen lastSeq = [] := by
    rw [List.eq_nil_iff_forall_not_mem]
    intro i hi
    rw [mem_missingSequences] at hi
    exact hi.2.2 (h i hi.1 (by omega))
  exact ⟨hm, by simp [recoveryRequests, hm]⟩

/-- Witness for C1: a seen set covering the whole of `[1, 3]` yields an
empty missing set and no recovery request frames. -/
theorem c1_missing_set_exact_witness :
    missingSequences [1, 2, 3] 3 = [] ∧ recoveryRequests [1, 2, 3] 3 = [] :=
  c1_missing_set_exact.2.2 [1, 2, 3] 3 (by
    intro i h1 h2
    interval_cases i <;> decide)

/-- C6: for every target sequence number, of any magnitude, the encoded
retrieve-one request is the 2-byte frame `[2, s % 256]`: the `uint8_t`
parameter narrows the sequence to its low 8 bits. Every request frame the
recovery phase sends has this shape, e.g. target 300 is encoded as 44. -/
theorem c6_retrieve_one_truncates :
    (∀ s : Nat, sendRequestBytes 2 s = [2, s % 256])
    ∧ (∀ (seen : List Nat) (lastSeq : Nat),
        recoveryRequests seen lastSeq
          = (missingSequences seen lastSeq).map (fun s => [2, s % 256]))
    ∧ sendRequestBytes 2 300 = [2, 44] := by
  refine ⟨fun s => rfl, fun seen lastSeq => ?_, by decide⟩
  simp only [recoveryRequests, sendRequestBytes]

/-- C8: when the primary stream yields zero records the run fails with
`NoDataReceived` no matter what the recovery oracle would have answered —
so gap reconciliation is skipped entirely (the missing list is never even
non-trivial) and, the result being an error, no output is written. -/
theorem c8_empty_stream_fails :
    ∀ resp : Nat → RecoveryResponse,
      fetchAccum [] resp = .error .noDataReceived ∧ missingOf [] = [] :=
  fun _ => ⟨rfl, rfl⟩

/-- C9: `lastSeq` is the sequence number of the last record appended during
the primary stream phase, in arrival order; the concrete conjuncts show a
stream ending in sequence 3 whose seen maximum is 5: `lastSeq` is 3. -/
theorem c9_lastSeq_is_last_appended :
    (∀ (ps : List Packet) (h : ps ≠ []),
        streamLastSeq ps = (ps.getLast h).sequence)
    ∧ streamLastSeq [c9pA, c9pB] = 3
    ∧ 5 ∈ [c9pA, c9pB].map Packet.sequence := by
  refine ⟨streamLastSeq_getLast, by decide, by decide⟩

/-- Witness for C9: the last-appended characterisation evaluated on the
concrete two-packet stream. -/
theorem c9_lastSeq_is_last_appended_witness :
    streamLastSeq [c9pA, c9pB] = ([c9pA, c9pB].getLast (by decide)).sequence :=
  c9_lastSeq_is_last_appended.1 [c9pA, c9pB] (by decide)

theorem toBytes4_of_bytes (b0 b1 b2 b3 : Nat) (h0 : b0 < 256) (h1 : b1 < 256)
    (h2 : b2 < 256) (h3 : b3 < 256) :
    toBytes4 (b0 * 2 ^ 24 + b1 * 2 ^ 16 + b2 * 2 ^ 8 + b3) = [b0, b1, b2, b3] := by
  have e24 : (2 : Nat) ^ 24 = 16777216 := by norm_num
  have e16 : (2 : Nat) ^ 16 = 65536 := by norm_num
  have e8 : (2 : Nat) ^ 8 = 256 := by norm_num
  simp only [toBytes4, e24, e16, e8, List.cons.injEq, and_true]
  refine ⟨?_, ?_, ?_, ?_⟩ <;> omega

/-- C3 amended: the decoder has no failure path at all. For every buffer of
at least 17 bytes, `parsePacket` returns a Record whose side field is byte 4
verbatim, and overwriting the side byte with any value whatsoever — valid
(66 `'B'`, 83 `'S'`) or not — still yields a Record carrying that byte: no
`MalformedPacket` check exists. (A buffer shorter than 17 bytes is likewise
not rejected: the C++ indexes it out of bounds, which is undefined
behaviour, rather than failing.) -/
theorem c3_parse_never_fails (data : List Nat) (h : 17 ≤ data.length) :
    (parsePacket data).side = data.getD 4 0
    ∧ ∀ b : Nat, (parsePacket (data.set 4 b)).side = b := by
  refine ⟨rfl, fun b => ?_⟩
  show (data.set 4 b).getD 4 0 = b
  rw [List.getD_eq_getElem _ 0 (by simp only [List.length_set]; omega)]
  simp

/-- Witness for C3: the amended statement evaluated on a concrete frame
whose side byte is 88, not a valid side. -/
theorem c3_parse_never_fails_witness :
    (parsePacket (testFrame 88 1 2 3)).side = (testFrame 88 1 2 3).getD 4 0 ∧
      (parsePacket ((testFrame 88 1 2 3).set 4 90)).side = 90 :=
  ⟨(c3_parse_never_fails (testFrame 88 1 2 3) (by decide)).1,
    (c3_parse_never_fails (testFrame 88 1 2 3) (by decide)).2 90⟩

/-- C3 counterexample: a 17-byte frame whose side byte is 88 (`'X'`, neither
`'B'` nor `'S'`) — which the claim says fails with `MalformedPacket` and
produces no Record — is decoded into a complete Record with side 88. -/
theorem c3_invalid_side_decodes_cex :
    parsePacket [65, 66, 67, 68, 88, 0, 0, 0, 1, 0, 0, 0, 2, 0, 0, 0, 3]
      = { symbol := [65, 66, 67, 68], side := 88, quantity := 1, price := 2,
          sequence := 3 } := by
  decide

/-- C4: for every 17-byte frame, the decoded Record's symbol is bytes
[0..4) verbatim, its side is byte 4, and its quantity, price and sequence
are the big-endian unsigned 32-bit integers at [5..9), [9..13) and [13..17):
their big-endian byte decompositions reproduce the observed bytes exactly. -/
theorem c4_decode_roundtrips (data : List Nat) (hlen : data.length = 17)
    (hbytes : ∀ b ∈ data, b < 256) :
    (parsePacket data).symbol
        = [data.getD 0 0, data.getD 1 0, data.getD 2 0, data.getD 3 0]
    ∧ (parsePacket data).side = data.getD 4 0
    ∧ toBytes4 (parsePacket data).quantity
        = [data.getD 5 0, data.getD 6 0, data.getD 7 0, data.getD 8 0]
    ∧ toBytes4 (parsePacket data).price
        = [data.getD 9 0, data.getD 10 0, data.getD 11 0, data.getD 12 0]
    ∧ toBytes4 (parsePacket data).sequence
        = [data.getD 13 0, data.getD 14 0, data.getD 15 0, data.getD 16 0] := by
  have hb : ∀ i, i < 17 → data.getD i 0 < 256 := by
    intro i hi
    have hlt : i < data.length := by omega
    rw [List.getD_eq_getElem data 0 hlt]
    exact hbytes _ (List.getElem_mem hlt)
  refine ⟨take_four_getD data (by omega), rfl, ?_, ?_, ?_⟩
  · show toBytes4 (readInt32 data 5) = _
    rw [readInt32_eq_value data 5 (hb 6 (by omega)) (hb 7 (by omega)) (hb 8 (by omega))]
    exact toBytes4_of_bytes _ _ _ _ (hb 5 (by omega)) (hb 6 (by omega))
      (hb 7 (by omega)) (hb 8 (by omega))
  · show toBytes4 (readInt32 data 9) = _
    rw [readInt32_eq_value data 9 (hb 10 (by omega)) (hb 11 (by omega)) (hb 12 (by omega))]
    exact toBytes4_of_bytes _ _ _ _ (hb 9 (by omega)) (hb 10 (by omega))
      (hb 11 (by omega)) (hb 12 (by omega))
  · show toBytes4 (readInt32 data 13) = _
    rw [readInt32_eq_value data 13 (hb 14 (by omega)) (hb 15 (by omega)) (hb 16 (by omega))]
    exact toBytes4_of_bytes _ _ _ _ (hb 13 (by omega)) (hb 14 (by omega))
      (hb 15 (by omega)) (hb 16 (by omega))

/-- Witness for C4: the round-trip statement evaluated on a concrete frame
with side `'S'`, quantity 7, price 9 and sequence 11. -/
theorem c4_decode_roundtrips_witness :
    (parsePacket (testFrame 83 7 9 11)).symbol
        = [(testFrame 83 7 9 11).getD 0 0, (testFrame 83 7 9 11).getD 1 0,
            (testFrame 83 7 9 11).getD 2 0, (testFrame 83 7 9 11).getD 3 0]
    ∧ toBytes4 (parsePacket (testFrame 83 7 9 11)).sequence
        = [(testFrame 83 7 9 11).getD 13 0, (testFrame 83 7 9 11).getD 14 0,
            (testFrame 83 7 9 11).getD 15 0, (testFrame 83 7 9 11).getD 16 0] :=
  ⟨(c4_decode_roundtrips (testFrame 83 7 9 11) (by decide) (by decide)).1,
    (c4_decode_roundtrips (testFrame 83 7 9 11) (by decide) (by decide)).2.2.2.2⟩

/-- C2 amended: for every run whose recovery responses raise no transport
error, the recovery loop takes the missing sequences in strictly ascending
order, opens one fresh channel and sends one call-type-2 request per
sequence with exactly one receive each, completes without failing even when
responses are empty (those sequences just stay missing), and appends one
parsed Record per non-empty response to the accumulation list only: the
seen-sequence set is NOT updated — its final value is still the stream-phase
sequences. -/
theorem c2_recovery_per_sequence (frames : List (List Nat))
    (resp : Nat → RecoveryResponse) (hne : frames ≠ [])
    (hok : ∀ s ∈ missingOf frames, resp s ≠ RecoveryResponse.err) :
    (missingOf frames).Pairwise (· < ·)
    ∧ fetchAccum frames resp
        = .ok (streamPackets frames ++ recoveredPackets resp (missingOf frames))
    ∧ (streamPackets frames ++ recoveredPackets resp (missingOf frames)).length
        = (streamPackets frames).length
            + (missingOf frames).countP (fun s => (resp s).isFrame)
    ∧ finalSeenSequences frames = streamSeqs frames := by
  have hne' : (streamPackets frames).isEmpty = false := by
    simp [streamPackets, hne]
  refine ⟨?_, ?_, ?_, rfl⟩
  · rw [missingOf_eq]
    exact missingSequences_sorted _ _
  · simp only [fetchAccum, hne', Bool.false_eq_true, if_false]
    exact recoverLoop_no_err resp _ _ hok
  · rw [List.length_append, recoveredPackets_length]

/-- Witness for C2 amended: the run with stream sequences {1,3} and a
successful recovery of sequence 2. -/
theorem c2_recovery_per_sequence_witness :
    (missingOf c2Frames).Pairwise (· < ·)
    ∧ fetchAccum c2Frames c2Resp
        = .ok (streamPackets c2Frames ++ recoveredPackets c2Resp (missingOf c2Frames)) :=
  ⟨(c2_recovery_per_sequence c2Frames c2Resp (by decide) (by decide)).1,
    (c2_recovery_per_sequence c2Frames c2Resp (by decide) (by decide)).2.1⟩

/-- C2 counterexample: in the run with stream sequences {1,3}, recovery of
the missing sequence 2 succeeds and its Record lands in the accumulation
list, but — contrary to the claim — sequence 2 is never added to the
seen-sequence set: `receivedSequences` still lacks it after the loop. -/
theorem c2_seen_not_updated_cex :
    fetchAccum c2Frames c2Resp
        = .ok [parsePacket (testFrame 66 1 1 1), parsePacket (testFrame 83 1 1 3),
            parsePacket (testFrame 66 1 1 2)]
    ∧ 2 ∈ List.map Packet.sequence
        [parsePacket (testFrame 66 1 1 1), parsePacket (testFrame 83 1 1 3),
          parsePacket (testFrame 66 1 1 2)]
    ∧ 2 ∉ finalSeenSequences c2Frames := by
  refine ⟨rfl, by decide, by decide⟩

/-- C5 amended: containment holds only for the orderly-close outcome — an
empty response skips that one sequence and the loop continues exactly as if
the sequence had not been attempted; but a transport error thrown inside a
single recovery attempt is caught nowhere in `fetchAndSaveData`, so it
aborts the whole recovery loop: later missing sequences are never attempted
and the run ends in error with no output. -/
theorem c5_error_aborts_rest (resp : Nat → RecoveryResponse) (s : Nat)
    (rest : List Nat) (acc : List Packet) :
    (resp s = RecoveryResponse.empty →
        recoverLoop resp (s :: rest) acc = recoverLoop resp rest acc)
    ∧ (resp s = RecoveryResponse.err →
        recoverLoop resp (s :: rest) acc = .error .channelError) := by
  constructor <;> intro h <;> simp [recoverLoop, h]

/-- Witness for C5 amended: under the concrete oracle, sequence 5 answers
with an orderly close and the loop just moves on, while sequence 2 answers
with a transport error and the loop aborts. -/
theorem c5_error_aborts_rest_witness :
    recoverLoop c5Resp [5, 7] [] = recoverLoop c5Resp [7] []
    ∧ recoverLoop c5Resp [2, 3] [] = .error .channelError :=
  ⟨(c5_error_aborts_rest c5Resp 5 [7] []).1 rfl,
    (c5_error_aborts_rest c5Resp 2 [3] []).2 rfl⟩

/-- C5 counterexample: sequences 2 and 3 are missing; the request for 2
hits a transport error while 3 would have been recoverable. The claim says
the error is contained to sequence 2's attempt, but the run aborts with a
channel error: sequence 3 is never attempted and no output is written. -/
theorem c5_error_not_contained_cex :
    missingOf c5Frames = [2, 3]
    ∧ c5Resp 2 = RecoveryResponse.err
    ∧ (c5Resp 3).isFrame = true
    ∧ fetchAccum c5Frames c5Resp = .error .channelError :=
  ⟨rfl, rfl, rfl, rfl⟩

/-- C10: every decoded frame is appended to the accumulation list
unconditionally — the list is exactly the streamed packets followed by one
packet per non-empty recovery response, with no deduplication against the
seen set — so any admissible sorted output preserves every packet's
multiplicity (duplicates included) and its length equals the number of
frames decoded across both phases. -/
theorem c10_output_counts_all_frames (frames : List (List Nat))
    (resp : Nat → RecoveryResponse) (ps out : List Packet)
    (hok : fetchAccum frames resp = .ok ps)
    (hsort : stdSortOutput ps out) :
    ps = streamPackets frames ++ recoveredPackets resp (missingOf frames)
    ∧ out.length
        = frames.length + (missingOf frames).countP (fun s => (resp s).isFrame)
    ∧ ∀ p : Packet, out.count p = ps.count p := by
  obtain ⟨hne, hps⟩ := fetchAccum_ok frames resp ps hok
  refine ⟨hps, ?_, fun p => (hsort.1.count_eq p).symm⟩
  rw [← hsort.1.length_eq, hps, List.length_append, recoveredPackets_length,
    streamPackets, List.length_map]

/-- Witness for C10: a stream delivering the same sequence-1 frame twice;
the output holds both copies and has length 2 (+ 0 recoveries). -/
theorem c10_output_counts_all_frames_witness :
    c10wPackets.length
        = c10wFrames.length
            + (missingOf c10wFrames).countP (fun s => (c10wResp s).isFrame)
    ∧ c10wPackets.count (parsePacket (testFrame 66 5 9 1)) = 2 :=
  ⟨(c10_output_counts_all_frames c10wFrames c10wResp c10wPackets c10wPackets rfl
      (by decide)).2.1,
    ((c10_output_counts_all_frames c10wFrames c10wResp c10wPackets c10wPackets rfl
      (by decide)).2.2 (parsePacket (testFrame 66 5 9 1))).trans (by decide)⟩

/-- C7 amended: for every run that fully recovers all missing sequences,
every admissible output of the sort is non-decreasing in `sequence` and
covers the whole of `[1, lastSeq]`; it has no duplicate sequence values
whenever the primary stream itself delivered distinct sequence numbers.
(When the stream delivers duplicate sequences they all survive to the
output, and the relative order of equal-sequence records is unspecified:
the unstable `std::sort` guarantees no first-seen tie-break.) -/
theorem c7_output_sorted_covering (frames : List (List Nat))
    (resp : Nat → RecoveryResponse) (ps out : List Packet)
    (hok : fetchAccum frames resp = .ok ps)
    (hfull : ∀ s ∈ missingOf frames,
        ∃ d, resp s = RecoveryResponse.frame d ∧ (parsePacket d).sequence = s)
    (hsort : stdSortOutput ps out) :
    sortedBySeq out
    ∧ (∀ i, 1 ≤ i → i ≤ streamLastSeq (streamPackets frames) →
        i ∈ out.map Packet.sequence)
    ∧ ((streamSeqs frames).Nodup → (out.map Packet.sequence).Nodup) := by
  obtain ⟨hne, hps⟩ := fetchAccum_ok frames resp ps hok
  have hspne : streamPackets frames ≠ [] := by
    simp [streamPackets, hne]
  have hmapeq : ps.map Packet.sequence = streamSeqs frames ++ missingOf frames := by
    rw [hps, List.map_append, recoveredPackets_seqs resp _ hfull]
    rfl
  have hperm := hsort.1.map Packet.sequence
  refine ⟨hsort.2, ?_, ?_⟩
  · intro i h1 hM
    have hin : i ∈ ps.map Packet.sequence := by
      rw [hmapeq]
      by_cases hseen : i ∈ streamSeqs frames
      · exact List.mem_append_left _ hseen
      · rcases Nat.lt_or_ge i (streamLastSeq (streamPackets frames)) with hlt | hge
        · refine List.mem_append_right _ ?_
          rw [missingOf_eq, mem_missingSequences]
          exact ⟨h1, hlt, hseen⟩
        · have hiM : i = streamLastSeq (streamPackets frames) := by omega
          subst hiM
          exact absurd (streamLastSeq_mem_seqs _ hspne) hseen
    exact hperm.mem_iff.mp hin
  · intro hnd
    have hns : (ps.map Packet.sequence).Nodup := by
      rw [hmapeq, List.nodup_append]
      refine ⟨hnd, ?_, ?_⟩
      · rw [missingOf_eq]
        exact missingSequences_nodup _ _
      · intro a ha hb
        rw [missingOf_eq, mem_missingSequences] at hb
        exact hb.2.2 ha
    exact hperm.nodup_iff.mp hns

/-- Witness for C7 amended: the run with stream sequences {1,2,4,5} and a
successful recovery of sequence 3, sorted into [1,2,3,4,5]. -/
theorem c7_output_sorted_covering_witness :
    sortedBySeq c7wOut
    ∧ 3 ∈ c7wOut.map Packet.sequence
    ∧ (c7wOut.map Packet.sequence).Nodup := by
  have h := c7_output_sorted_covering c7wFrames c7wResp c7wPackets c7wOut rfl
    (by
      intro s hs
      have hs3 : s = 3 := by
        have hm : missingOf c7wFrames = [3] := rfl
        rw [hm, List.mem_singleton] at hs
        exact hs
      subst hs3
      exact ⟨testFrame 66 1 1 3, rfl, rfl⟩)
    (by decide)
  exact ⟨h.1, h.2.1 3 (by decide) (by decide), h.2.2 (by decide)⟩

/-- C7 counterexample: a fully recovered run (nothing missing) whose stream
delivered sequence 2 twice. The accumulated list is itself an admissible
sort output yet its sequence values contain a duplicate, contradicting the
claimed no-duplicates guarantee; moreover the same input admits a second,
different sorted output in which the two equal-sequence records are
exchanged, so no first-seen tie-break is guaranteed either. -/
theorem c7_duplicates_unstable_cex :
    fetchAccum c7Frames c7Resp = .ok c7Packets
    ∧ missingOf c7Frames = []
    ∧ stdSortOutput c7Packets c7Packets
    ∧ ¬ (List.map Packet.sequence c7Packets).Nodup
    ∧ stdSortOutput c7Packets c7Swapped
    ∧ c7Packets ≠ c7Swapped := by
  refine ⟨rfl, rfl, by decide, by decide, by decide, by decide⟩
